import Mathlib

/-!
# VWRL strategy dashboard — verification of the signal pipeline

Shallow embedding of `src/main.py` (the single script of the repository).
Prices are modelled as exact rationals (`ℚ`); the script computes in IEEE
doubles, whose rounding none of the verified properties depend on.  The
floating-point square root used by the Bollinger standard deviation is
abstracted as an explicit function parameter `sq : ℚ → ℚ`; no verified
property depends on the numeric value of a Bollinger band.  Pandas `NaN`
cells are modelled as `Option.none`.
-/

namespace VWRL

/-- The configured ticker (`TICKER = "VWRL.AS"`, main.py line 26). -/
def TICKER : String := "VWRL.AS"

/-- A raw OHLCV table as returned by the data supplier (a `DataFrame`):
column labels (already flattened, as after main.py line 48's
`'_'.join(col)` step) plus one list of cells per row, aligned with the
columns.  The first component of a row is its date (the index), encoded
as a natural number; dates are not inspected by the pipeline. -/
structure RawFrame where
  cols : List String
  rows : List (ℕ × List (Option ℚ))
deriving DecidableEq, Repr

/-- The rename map of main.py lines 50-57: ticker-qualified labels are
renamed to the canonical field names. -/
def columnMap (c : String) : String :=
  if c = "Close_" ++ TICKER then "Close"
  else if c = "Open_" ++ TICKER then "Open"
  else if c = "High_" ++ TICKER then "High"
  else if c = "Low_" ++ TICKER then "Low"
  else if c = "Volume_" ++ TICKER then "Volume"
  else c

/-- `df.dropna()` row predicate (main.py line 65): every cell non-null. -/
def rowAllSome (r : ℕ × List (Option ℚ)) : Bool :=
  r.2.all Option.isSome

/-- Error kinds of the pipeline.  The first three are the `ValueError`s of
main.py lines 44-45, 59-60 and 62-63 (the spec's `DataUnavailable`);
`notOneDim` is the distinct `ValueError` of lines 70-71, raised when the
squeezed close column is not one-dimensional. -/
inductive PipeError where
  | emptyTable
  | closeMissing
  | allCloseNull
  | notOneDim
deriving DecidableEq, Repr

/-- Which error kinds the spec calls `DataUnavailable` (§7): empty raw
table, unresolvable close field, all closes null. -/
def PipeError.isDataUnavailable : PipeError → Bool
  | .emptyTable => true
  | .closeMissing => true
  | .allCloseNull => true
  | .notOneDim => false

/-- One row of the normalized series: the date, the original cells
(carried through untouched) and the extracted close price. -/
structure NormRow where
  date : ℕ
  cells : List (Option ℚ)
  close : ℚ
deriving DecidableEq, Repr

/-- The Series Normalizer: main.py lines 44-73.  In order: empty check
(line 44), column rename (lines 47-57), close-resolution check (line 59),
all-closes-null check (line 62), `dropna` of rows holding any null
(line 65), and the squeeze shape check (lines 67-71): `df[['Close']]`
squeezed yields a scalar — not a 1-D series — exactly when one row
remains, and the script then raises. -/
def normalize (f : RawFrame) : Except PipeError (List NormRow) :=
  if f.rows.isEmpty then .error .emptyTable
  else
    let cols := f.cols.map columnMap
    if "Close" ∈ cols then
      let ci := cols.indexOf "Close"
      if f.rows.all (fun r => (r.2.getD ci none).isNone) then .error .allCloseNull
      else
        let kept := f.rows.filter rowAllSome
        if kept.length = 1 then .error .notOneDim
        else .ok (kept.map (fun r => ⟨r.1, r.2, (r.2.getD ci none).getD 0⟩))
    else .error .closeMissing

/-! ## Indicator Engine (main.py lines 75-93)

`RSIIndicator(close, window=14).rsi()` from the `ta` library: close-to-close
differences, gains/losses split, exponential smoothing with `alpha = 1/14`,
`adjust=False`, `min_periods = 14` (so the first 14 rows are null);
`BollingerBands(close, window=20, window_dev=2)`: 20-period rolling mean and
population standard deviation (`ddof=0`, null before the 20th row);
`cummax` and the drawdown formula of lines 82-83. -/

/-- Exponential moving average with `adjust=False`: after the seed, each
step is `(1-a)*e + a*x`. -/
def ewmRec (a : ℚ) : ℚ → List ℚ → List ℚ
  | _, [] => []
  | e, x :: xs =>
    let e2 := (1 - a) * e + a * x
    e2 :: ewmRec a e2 xs

/-- `ewm(alpha=a, adjust=False).mean()` of a series whose first value seeds
the recursion (pandas skips the leading null of `diff(1)`). -/
def ewmAdjFalse (a : ℚ) : List ℚ → List ℚ
  | [] => []
  | x :: xs => x :: ewmRec a x xs

/-- Close-to-close differences `close.diff(1)`, dropping the leading null:
entry `i` is `c[i+1] - c[i]`. -/
def diffs : List ℚ → List ℚ
  | [] => []
  | [_] => []
  | x :: y :: xs => (y - x) :: diffs (y :: xs)

/-- The RSI value from the smoothed gain/loss averages.  In floats,
`rs = up/dn` is `+inf` when `dn = 0 < up` (so RSI is 100) and `NaN` when
both are 0 (so the RSI cell is null and the row is later dropped). -/
def rsiVal (up dn : ℚ) : Option ℚ :=
  if dn = 0 then (if up = 0 then none else some 100)
  else some (100 - 100 / (1 + up / dn))

/-- `RSIIndicator(close, window=14).rsi()` (main.py line 76): entry `i` is
null for `i < 14` (`min_periods`), and otherwise the RSI computed from the
`ewm`-smoothed gains and losses of the first `i` differences. -/
def rsiSeries (cs : List ℚ) : List (Option ℚ) :=
  let ds := diffs cs
  let eu := ewmAdjFalse (1 / 14) (ds.map (fun d => max d 0))
  let ed := ewmAdjFalse (1 / 14) (ds.map (fun d => max (-d) 0))
  (List.range cs.length).map fun i =>
    if i < 14 then none
    else rsiVal (eu.getD (i - 1) 0) (ed.getD (i - 1) 0)

/-- Mean of the trailing 20-window ending at index `i` (inclusive). -/
def rollMean20 (cs : List ℚ) (i : ℕ) : ℚ :=
  (((cs.drop (i - 19)).take 20).foldl (· + ·) 0) / 20

/-- Population variance (`ddof=0`) of the trailing 20-window ending at
index `i`. -/
def rollVar20 (cs : List ℚ) (i : ℕ) : ℚ :=
  let w := (cs.drop (i - 19)).take 20
  let m := rollMean20 cs i
  (w.foldl (fun acc x => acc + (x - m) * (x - m)) 0) / 20

/-- `bb.bollinger_mavg()` (main.py line 79): null before the 20th row. -/
def bbmSeries (cs : List ℚ) : List (Option ℚ) :=
  (List.range cs.length).map fun i =>
    if i < 19 then none else some (rollMean20 cs i)

/-- `bb.bollinger_lband()` (main.py line 78): mean minus two standard
deviations; `sq` abstracts the floating-point square root. -/
def bblSeries (sq : ℚ → ℚ) (cs : List ℚ) : List (Option ℚ) :=
  (List.range cs.length).map fun i =>
    if i < 19 then none else some (rollMean20 cs i - 2 * sq (rollVar20 cs i))

/-- `bb.bollinger_hband()` (main.py line 80). -/
def bbuSeries (sq : ℚ → ℚ) (cs : List ℚ) : List (Option ℚ) :=
  (List.range cs.length).map fun i =>
    if i < 19 then none else some (rollMean20 cs i + 2 * sq (rollVar20 cs i))

/-- Running maximum with accumulator: cell `i` holds the max of the seed
and the first `i+1` values. -/
def cummaxFrom (m : ℚ) : List ℚ → List ℚ
  | [] => []
  | c :: cs => max m c :: cummaxFrom (max m c) cs

/-- `close_series.cummax()` (main.py line 82). -/
def athSeries : List ℚ → List ℚ
  | [] => []
  | c :: cs => cummaxFrom c (c :: cs)

/-- `(close - ATH) / ATH * 100` (main.py line 83).  A zero all-time high
makes the float division produce `NaN`, modelled as null. -/
def ddSeries (cs : List ℚ) : List (Option ℚ) :=
  let ath := athSeries cs
  (List.range cs.length).map fun i =>
    let a := ath.getD i 0
    if a = 0 then none else some ((cs.getD i 0 - a) / a * 100)

/-- One row of the indicator table: the normalized row plus the RSI,
Bollinger, all-time-high and drawdown columns of main.py lines 76-83. -/
structure IndRow where
  date : ℕ
  cells : List (Option ℚ)
  close : ℚ
  rsi : Option ℚ
  bbl : Option ℚ
  bbm : Option ℚ
  bbu : Option ℚ
  ath : ℚ
  dd : Option ℚ
deriving DecidableEq, Repr

/-- The Indicator Engine: assembles the indicator columns next to each
normalized row (main.py lines 75-83), one output row per input row. -/
def computeRows (sq : ℚ → ℚ) (ns : List NormRow) : List IndRow :=
  let cs := ns.map (·.close)
  let rsi := rsiSeries cs
  let bbl := bblSeries sq cs
  let bbm := bbmSeries cs
  let bbu := bbuSeries sq cs
  let ath := athSeries cs
  let dd := ddSeries cs
  (List.range ns.length).map fun i =>
    let n := ns.getD i ⟨0, [], 0⟩
    ⟨n.date, n.cells, n.close, rsi.getD i none, bbl.getD i none,
      bbm.getD i none, bbu.getD i none, ath.getD i 0, dd.getD i none⟩

/-- `df.dropna(subset=['RSI', 'BBL', 'Drawdown'])` (main.py line 93): a row
survives exactly when those three cells are non-null. -/
def warmOk (r : IndRow) : Bool :=
  r.rsi.isSome && r.bbl.isSome && r.dd.isSome

/-! ## Signal Evaluator (main.py lines 95-102) -/

/-- A pandas comparison `series < t` where the left cell may be `NaN`:
a null operand compares as false. -/
def optLt (o : Option ℚ) (t : ℚ) : Bool :=
  match o with
  | some v => decide (v < t)
  | none => false

/-- A pandas comparison `close < series` where the right cell may be
`NaN`: a null operand compares as false. -/
def ltOpt (c : ℚ) (o : Option ℚ) : Bool :=
  match o with
  | some v => decide (c < v)
  | none => false

/-- A signal row: the indicator row plus the boolean `Buy Signal` column. -/
structure SigRow where
  date : ℕ
  cells : List (Option ℚ)
  close : ℚ
  rsi : Option ℚ
  bbl : Option ℚ
  bbm : Option ℚ
  bbu : Option ℚ
  ath : ℚ
  dd : Option ℚ
  buy : Bool
deriving DecidableEq, Repr

/-- Main.py lines 96-102: `(RSI < 30) & (Close < BBL) & (Drawdown < -20)`,
with `.fillna(False).astype(bool)` — null comparisons already yield false,
so the result is a plain boolean. -/
def evalSignal (r : IndRow) : SigRow :=
  ⟨r.date, r.cells, r.close, r.rsi, r.bbl, r.bbm, r.bbu, r.ath, r.dd,
    optLt r.rsi 30 && ltOpt r.close r.bbl && optLt r.dd (-20)⟩

/-- `get_data` (main.py lines 41-106): normalize, compute indicators, drop
rows with null RSI/BBL/Drawdown, then evaluate the buy signal.  The
`try`/`except` of lines 75-86 and the missing-column guard of lines 88-91
never fire in the model: the indicator computation is total and always
produces its columns. -/
def get_data (f : RawFrame) (sq : ℚ → ℚ) : Except PipeError (List SigRow) :=
  match normalize f with
  | .error e => .error e
  | .ok ns => .ok (((computeRows sq ns).filter warmOk).map evalSignal)

/-! ## Alerting (main.py lines 109-123) and the Notification Gate
(main.py lines 130-140) -/

/-- The mail configuration of main.py lines 29-35: `ALERT_EMAIL` and
`EMAIL_PASSWORD` may be unset (`os.getenv` returns `None`), and
`RECIPIENT_EMAILS` may be empty after trimming. -/
structure Config where
  alertEmail : Option String
  password : Option String
  recipients : List String
deriving DecidableEq, Repr

/-- A composed email message (main.py lines 110-115). -/
structure EmailMsg where
  subject : String
  body : String
  fromAddr : Option String
  toLine : String
deriving DecidableEq, Repr

/-- A Streamlit UI outcome: `st.success` (line 121) or `st.error`
(line 123, the non-fatal warning path of the delivery boundary). -/
inductive UiMsg where
  | success (s : String)
  | errorMsg (s : String)
deriving DecidableEq, Repr

/-- Python's `f"{price:.2f}"`: the price rounded to two decimal places and
rendered with exactly two fractional digits.  (Floats round half-to-even
on the decimal expansion; exact rational ties, irrelevant to every claim,
round here half-up.) -/
def fmt2 (q : ℚ) : String :=
  let c : ℤ := round (q * 100)
  let n := c.natAbs
  let fr := n % 100
  (if c < 0 then "-" else "") ++ toString (n / 100) ++ "." ++
    (if fr < 10 then "0" ++ toString fr else toString fr)

/-- The message body of main.py line 112, price formatted to two decimal
places. -/
def composeBody (d : ℕ) (price : ℚ) : String :=
  "Buy signal for " ++ TICKER ++ " on " ++ toString d ++ " at price " ++ fmt2 price

/-- The subject line of main.py lines 111 and 113: `[TEST] ` marks test
mode. -/
def composeSubject (testMode : Bool) : String :=
  (if testMode then "[TEST] " else "") ++ "Buy Signal Alert: " ++ TICKER

/-- The full message composition of main.py lines 110-115: body, subject,
from-address (possibly unset) and the comma-joined recipient line.  No
configuration validation happens here. -/
def composeMsg (cfg : Config) (d : ℕ) (price : ℚ) (testMode : Bool) : EmailMsg :=
  ⟨composeSubject testMode, composeBody d price, cfg.alertEmail,
    String.intercalate ", " cfg.recipients⟩

/-- `send_email` (main.py lines 109-123).  The SMTP session is abstracted
as `deliver`, the collaborator receiving the configuration (for the login)
and the composed message; the `try`/`except Exception` of lines 117-123
turns its failure into the `st.error` warning and swallows it, so the
function is total.  The attempt is made unconditionally: no check of the
configuration precedes it. -/
def send_email (cfg : Config) (d : ℕ) (price : ℚ) (testMode : Bool)
    (deliver : Config → EmailMsg → Except String Unit) : UiMsg :=
  let msg := composeMsg cfg d price testMode
  match deliver cfg msg with
  | .ok _ => .success ("Email" ++ (if testMode then " (test)" else "")
      ++ " sent to: " ++ msg.toLine)
  | .error e => .errorMsg ("Failed to send email: " ++ e)

/-- A notification event (spec §3): created by the gate, handed to the
mail collaborator. -/
structure Event where
  date : ℕ
  price : ℚ
  testFlag : Bool
  subject : String
  body : String
deriving DecidableEq, Repr

/-- The event composed for a signal row. -/
def mkEvent (r : SigRow) (testFlag : Bool) : Event :=
  ⟨r.date, r.close, testFlag, composeSubject testFlag, composeBody r.date r.close⟩

/-- Modelled from the spec: the notification gate's `test` and `forced`
modes (spec §4.4) live only in the repository's other script drafts, not
in `src/main.py`, which hard-codes the live mode (`test_mode=False`,
line 139).  `live` is the code path of main.py lines 135-139. -/
inductive Mode where
  | live
  | test
  | forced
deriving DecidableEq, Repr

/-- Modelled from the spec: `decide(signal_rows, mode)` applied to the
most recent row.  The `live` branch is main.py lines 135-139 (an event
exactly when `Buy Signal` is true); `test` always composes a test-tagged
event and `forced` always composes a live-tagged event, per spec §4.4. -/
def decideLast (r : SigRow) : Mode → Option Event
  | .live => if r.buy then some (mkEvent r false) else none
  | .test => some (mkEvent r true)
  | .forced => some (mkEvent r false)

/-- The module-level gate run of main.py lines 131-140: `df.iloc[-1]`
raises an `IndexError` on an empty table (modelled as the `.error` case);
otherwise the buy signal of the last row decides whether `send_email` is
called, and the signal table itself is returned unchanged. -/
def gateRun (rows : List SigRow) (cfg : Config)
    (deliver : Config → EmailMsg → Except String Unit) :
    Except String (List SigRow × Option UiMsg) :=
  match rows.getLast? with
  | none => .error "single positional indexer is out-of-bounds"
  | some latest =>
    if latest.buy then
      .ok (rows, some (send_email cfg latest.date latest.close false deliver))
    else .ok (rows, none)

/-! ## Concrete inputs used by counterexamples and witnesses -/

/-- The canonical column labels, as delivered for a single-ticker download
that needs no renaming. -/
def canonCols : List String := ["Open", "High", "Low", "Close", "Volume"]

/-- A fully populated raw row with the given date and close. -/
def fullRow (d : ℕ) (c : ℚ) : ℕ × List (Option ℚ) :=
  (d, [some c, some c, some c, some c, some 1])

/-- A stub for the abstracted square root, adequate wherever no Bollinger
value is inspected. -/
def sq0 : ℚ → ℚ := fun _ => 0

/-- A ten-point series, below every indicator warm-up threshold. -/
def frame10 : RawFrame :=
  ⟨canonCols, (List.range 10).map (fun i => fullRow i (i + 1))⟩

/-- A two-point series (also below every warm-up threshold). -/
def frame2 : RawFrame := ⟨canonCols, [fullRow 0 1, fullRow 1 2]⟩

/-- The normalized form of `frame2`. -/
def ns2 : List NormRow :=
  [⟨0, [some 1, some 1, some 1, some 1, some 1], 1⟩,
   ⟨1, [some 2, some 2, some 2, some 2, some 1], 2⟩]

/-- An empty mail configuration: unset sender and password, no
recipients. -/
def cfg0 : Config := ⟨none, none, []⟩

/-- A delivery collaborator that always succeeds. -/
def deliverOk : Config → EmailMsg → Except String Unit := fun _ _ => .ok ()

/-- A delivery collaborator that always fails. -/
def deliverBoom : Config → EmailMsg → Except String Unit :=
  fun _ _ => .error "boom"

/-- A signal row whose buy signal is set. -/
def rT : SigRow := ⟨7, [], 5, some 10, some 6, none, none, 5, some (-25), true⟩

/-! ## Helper lemmas -/

lemma map_range_getD {α β : Type} (d : α) (g : α → β) (ns : List α) :
    (List.range ns.length).map (fun i => g (ns.getD i d)) = ns.map g := by
  induction ns with
  | nil => rfl
  | cons a t ih =>
    rw [List.length_cons, List.range_succ_eq_map, List.map_cons, List.map_map]
    simp only [Function.comp_def, List.getD_cons_zero, List.getD_cons_succ]
    rw [ih, List.map_cons]

lemma getD_map_range {β : Type} (n : ℕ) (g : ℕ → β) (d : β) (i : ℕ) (hi : i < n) :
    ((List.range n).map g).getD i d = g i := by
  rw [List.getD_eq_getElem?_getD, List.getElem?_map, List.getElem?_range hi]
  rfl

/-- What a successful normalization returns: the retained rows (those with
no null cell) in input order, each with its close extracted. -/
lemma normalize_ok_eq {f : RawFrame} {ns : List NormRow}
    (h : normalize f = .ok ns) :
    ns = (f.rows.filter rowAllSome).map
      (fun r => ⟨r.1, r.2,
        (r.2.getD ((f.cols.map columnMap).indexOf "Close") none).getD 0⟩) := by
  simp only [normalize] at h
  split at h
  · cases h
  · split at h
    · split at h
      · cases h
      · split at h
        · cases h
        · injection h with h
          exact h.symm
    · cases h

/-- What a successful `get_data` returns, in terms of the normalized
series. -/
lemma get_data_ok {f : RawFrame} {sq : ℚ → ℚ} {rows : List SigRow}
    (h : get_data f sq = .ok rows) :
    ∃ ns, normalize f = .ok ns
      ∧ rows = ((computeRows sq ns).filter warmOk).map evalSignal := by
  unfold get_data at h
  cases hn : normalize f with
  | error e => rw [hn] at h; cases h
  | ok ns => rw [hn] at h; injection h with h; exact ⟨ns, rfl, h.symm⟩

/-- The indicator table has exactly one row per normalized point, with the
dates carried through in order. -/
lemma computeRows_map_date (sq : ℚ → ℚ) (ns : List NormRow) :
    (computeRows sq ns).map IndRow.date = ns.map NormRow.date := by
  simp only [computeRows, List.map_map]
  exact map_range_getD ⟨0, [], 0⟩ (fun n => n.date) ns

lemma foldl_max_init_le (l : List ℚ) (m : ℚ) : m ≤ l.foldl max m := by
  induction l generalizing m with
  | nil => exact le_refl m
  | cons a t ih => exact le_trans (le_max_left m a) (ih (max m a))

lemma foldl_max_le_of_mem {a : ℚ} {l : List ℚ} (h : a ∈ l) (m : ℚ) :
    a ≤ l.foldl max m := by
  induction l generalizing m with
  | nil => cases h
  | cons b t ih =>
    rcases List.mem_cons.1 h with rfl | h2
    · exact le_trans (le_max_right m a) (foldl_max_init_le t (max m a))
    · exact ih h2 (max m b)

lemma foldl_max_eq_or_mem (l : List ℚ) (m : ℚ) :
    l.foldl max m = m ∨ l.foldl max m ∈ l := by
  induction l generalizing m with
  | nil => exact Or.inl rfl
  | cons b t ih =>
    have hfold : (b :: t).foldl max m = t.foldl max (max m b) := rfl
    rcases ih (max m b) with h | h
    · rcases le_total m b with hmb | hbm
      · right
        rw [hfold, h, max_eq_right hmb]
        exact List.mem_cons_self b t
      · left
        rw [hfold, h, max_eq_left hbm]
    · right
      rw [hfold]
      exact List.mem_cons_of_mem b h

lemma cummaxFrom_getD (cs : List ℚ) (m : ℚ) (i : ℕ) (hi : i < cs.length) :
    (cummaxFrom m cs).getD i 0 = (cs.take (i + 1)).foldl max m := by
  induction cs generalizing m i with
  | nil => simp at hi
  | cons c t ih =>
    cases i with
    | zero => simp [cummaxFrom]
    | succ j =>
      have hj : j < t.length := by
        simpa using Nat.lt_of_succ_lt_succ (by simpa using hi)
      have h1 : (cummaxFrom m (c :: t)).getD (j + 1) 0
          = (cummaxFrom (max m c) t).getD j 0 := rfl
      rw [h1, ih (max m c) j hj, List.take_succ_cons]
      rfl

lemma athSeries_getD (c : ℚ) (t : List ℚ) (i : ℕ) (hi : i < (c :: t).length) :
    (athSeries (c :: t)).getD i 0 = ((c :: t).take (i + 1)).foldl max c :=
  cummaxFrom_getD (c :: t) c i hi

/-- The running maximum grows with the index. -/
lemma athSeries_mono (c : ℚ) (t : List ℚ) (j i : ℕ) (hji : j ≤ i)
    (hi : i < (c :: t).length) :
    (athSeries (c :: t)).getD j 0 ≤ (athSeries (c :: t)).getD i 0 := by
  have hjlen : j < (c :: t).length := lt_of_le_of_lt hji hi
  rw [athSeries_getD c t j hjlen, athSeries_getD c t i hi]
  have hsplit : (c :: t).take (i + 1)
      = (c :: t).take (j + 1) ++ (((c :: t).drop (j + 1)).take (i - j)) := by
    rw [← List.take_add]
    congr 1
    omega
  rw [hsplit, List.foldl_append]
  exact foldl_max_init_le _ _

/-- The running maximum dominates every earlier close. -/
lemma athSeries_ge (c : ℚ) (t : List ℚ) (j i : ℕ) (hji : j ≤ i)
    (hi : i < (c :: t).length) :
    (c :: t).getD j 0 ≤ (athSeries (c :: t)).getD i 0 := by
  have hjlen : j < (c :: t).length := lt_of_le_of_lt hji hi
  rw [athSeries_getD c t i hi]
  have hjt : j < ((c :: t).take (i + 1)).length := by
    rw [List.length_take]
    exact lt_min (by omega) hjlen
  have heq : (c :: t).getD j 0 = ((c :: t).take (i + 1))[j] := by
    rw [List.getElem_take, List.getD_eq_getElem?_getD,
      List.getElem?_eq_getElem hjlen]
    rfl
  rw [heq]
  exact foldl_max_le_of_mem (List.getElem_mem hjt) c

/-- The running maximum is attained at some earlier index. -/
lemma athSeries_attained (c : ℚ) (t : List ℚ) (i : ℕ) (hi : i < (c :: t).length) :
    ∃ j, j ≤ i ∧ (athSeries (c :: t)).getD i 0 = (c :: t).getD j 0 := by
  rw [athSeries_getD c t i hi]
  rcases foldl_max_eq_or_mem ((c :: t).take (i + 1)) c with h | h
  · exact ⟨0, Nat.zero_le i, by simpa using h⟩
  · rcases List.mem_iff_getElem.1 h with ⟨j, hjt, hja⟩
    have hjlen : j < (c :: t).length := by
      have := hjt
      rw [List.length_take] at this
      omega
    have hji : j ≤ i := by
      have := hjt
      rw [List.length_take] at this
      omega
    refine ⟨j, hji, ?_⟩
    rw [← hja, List.getElem_take, List.getD_eq_getElem?_getD,
      List.getElem?_eq_getElem hjlen]
    rfl

/-! ## Claim theorems -/

/-- C1 (counterexample): a series of exactly 10 fully populated points
produces an empty signal table — `dropna(subset=['RSI','BBL','Drawdown'])`
at main.py line 93 removes every warm-up row, so the table has 0 rows,
not one row per input point with null indicator fields. -/
theorem C1_counterexample_ten_points_give_zero_rows :
    get_data frame10 sq0 = .ok [] ∧ (0 : ℕ) ≠ 10 :=
  ⟨rfl, by decide⟩

/-- C1 (amended): the indicator table does have one row per normalized
input point, in order with 1:1 date correspondence; but the signal table
then retains only the rows whose RSI, lower Bollinger band and drawdown
are all non-null (warm-up rows are dropped), every retained row having
non-null indicators and a boolean buy signal; a 10-point series therefore
yields a 0-row signal table rather than a 10-row one. -/
theorem C1_indicator_rows_one_per_point_signal_rows_filtered
    (f : RawFrame) (sq : ℚ → ℚ) (ns : List NormRow) (rows : List SigRow)
    (hn : normalize f = .ok ns) (hg : get_data f sq = .ok rows) :
    (computeRows sq ns).map IndRow.date = ns.map NormRow.date
    ∧ rows = ((computeRows sq ns).filter warmOk).map evalSignal
    ∧ ∀ r ∈ rows, r.rsi.isSome = true ∧ r.bbl.isSome = true
        ∧ r.dd.isSome = true := by
  obtain ⟨ns2, hn2, hrows⟩ := get_data_ok hg
  rw [hn] at hn2
  injection hn2 with hn2
  subst hn2
  refine ⟨computeRows_map_date sq ns, hrows, ?_⟩
  intro r hr
  rw [hrows] at hr
  obtain ⟨a, ha, hae⟩ := List.mem_map.1 hr
  obtain ⟨-, hwarm⟩ := List.mem_filter.1 ha
  unfold warmOk at hwarm
  rw [Bool.and_eq_true, Bool.and_eq_true] at hwarm
  obtain ⟨⟨h1, h2⟩, h3⟩ := hwarm
  rw [← hae]
  exact ⟨h1, h2, h3⟩

/-- C1 (witness instance of the amended claim, at the two-point series). -/
theorem C1_amended_witness :
    (computeRows sq0 ns2).map IndRow.date = ns2.map NormRow.date
    ∧ ([] : List SigRow) = ((computeRows sq0 ns2).filter warmOk).map evalSignal
    ∧ ∀ r ∈ ([] : List SigRow), r.rsi.isSome = true ∧ r.bbl.isSome = true
        ∧ r.dd.isSome = true :=
  C1_indicator_rows_one_per_point_signal_rows_filtered frame2 sq0 ns2 []
    (by rfl) (by rfl)

/-- C2: on every row of the produced signal table, the buy signal is the
boolean conjunction `(rsi14 < 30) AND (close < bb_lower) AND
(drawdown_pct < -20)`, where a comparison with a null operand counts as
false (`optLt`/`ltOpt`), so the signal is false rather than null on rows
with missing indicators. -/
theorem C2_buy_signal_is_nullsafe_conjunction
    (f : RawFrame) (sq : ℚ → ℚ) (rows : List SigRow)
    (hg : get_data f sq = .ok rows) :
    ∀ r ∈ rows,
      r.buy = (optLt r.rsi 30 && ltOpt r.close r.bbl && optLt r.dd (-20)) := by
  obtain ⟨ns, -, hrows⟩ := get_data_ok hg
  intro r hr
  rw [hrows] at hr
  obtain ⟨a, -, hae⟩ := List.mem_map.1 hr
  rw [← hae]
  rfl

/-- A twenty-point series with closes 1..20, long enough for one row
(index 19) to survive every warm-up. -/
def frame20 : RawFrame :=
  ⟨canonCols, (List.range 20).map (fun i => fullRow i (i + 1))⟩

/-- The single signal row `get_data` produces from `frame20` under the
stub square root. -/
def row19 : SigRow :=
  ⟨19, [some 20, some 20, some 20, some 20, some 1], 20, some 100,
    some (21 / 2), some (21 / 2), some (21 / 2), 20, some 0, false⟩

set_option maxRecDepth 10000 in
/-- C2 (witness instance, at the twenty-point series with one produced
row). -/
theorem C2_witness :
    row19.buy
      = (optLt row19.rsi 30 && ltOpt row19.close row19.bbl
          && optLt row19.dd (-20)) :=
  C2_buy_signal_is_nullsafe_conjunction frame20 sq0 [row19]
    (by with_unfolding_all rfl) row19 (List.mem_singleton.2 rfl)

/-- C3 (counterexample): with negative closes (never produced by a real
price series, but nothing in the code excludes them) the drawdown is
positive: for the close series `[-10, -20]` the all-time high is `-10`
and the second drawdown is `(-20 - (-10)) / (-10) * 100 = 100 > 0`,
contradicting `drawdown_pct[i] ≤ 0`. -/
theorem C3_counterexample_negative_close_positive_drawdown :
    (ddSeries [-10, -20]).getD 1 none = some 100 ∧ ¬ ((100 : ℚ) ≤ 0) :=
  ⟨by with_unfolding_all rfl, by norm_num⟩

/-- C3 (amended): for a series of positive closes, the all-time high at
index `i` is the maximum of the closes up to `i` (it dominates each of
them and is attained at one of them), it is non-decreasing in `i`, the
drawdown is defined and equals `(close - ath) / ath * 100`, and every
drawdown value is at most 0, being 0 exactly when the close equals the
all-time high. -/
theorem C3_ath_running_max_and_drawdown_nonpos
    (cs : List ℚ) (hpos : ∀ c ∈ cs, 0 < c) (i : ℕ) (hi : i < cs.length) :
    ((∀ j, j ≤ i → cs.getD j 0 ≤ (athSeries cs).getD i 0)
      ∧ (∃ j, j ≤ i ∧ (athSeries cs).getD i 0 = cs.getD j 0))
    ∧ (∀ j, j ≤ i → (athSeries cs).getD j 0 ≤ (athSeries cs).getD i 0)
    ∧ (ddSeries cs).getD i none
        = some ((cs.getD i 0 - (athSeries cs).getD i 0)
            / (athSeries cs).getD i 0 * 100)
    ∧ (∀ v, (ddSeries cs).getD i none = some v →
        v ≤ 0 ∧ (v = 0 ↔ cs.getD i 0 = (athSeries cs).getD i 0)) := by
  cases cs with
  | nil => simp at hi
  | cons c t =>
    have h1 : ∀ j, j ≤ i → (c :: t).getD j 0 ≤ (athSeries (c :: t)).getD i 0 :=
      fun j hj => athSeries_ge c t j i hj hi

    have h2 := athSeries_attained c t i hi
    have hApos : 0 < (athSeries (c :: t)).getD i 0 := by
      obtain ⟨j, hji, hAj⟩ := h2
      have hjl : j < (c :: t).length := lt_of_le_of_lt hji hi
      have hgd : (c :: t).getD j 0 = (c :: t)[j] := by
        rw [List.getD_eq_getElem?_getD, List.getElem?_eq_getElem hjl]
        rfl
      rw [hAj, hgd]
      exact hpos _ (List.getElem_mem hjl)
    have hdd : (ddSeries (c :: t)).getD i none
        = some ((( c :: t).getD i 0 - (athSeries (c :: t)).getD i 0)
            / (athSeries (c :: t)).getD i 0 * 100) := by
      simp only [ddSeries]
      rw [getD_map_range _ _ _ i (by simpa using hi)]
      simp only [if_neg hApos.ne']
    refine ⟨⟨h1, h2⟩, fun j hj => athSeries_mono c t j i hj hi, hdd, ?_⟩
    intro v hv
    rw [hdd] at hv
    injection hv with hv
    subst hv
    have hci : (c :: t).getD i 0 ≤ (athSeries (c :: t)).getD i 0 := h1 i le_rfl
    have hfrac : ((c :: t).getD i 0 - (athSeries (c :: t)).getD i 0)
        / (athSeries (c :: t)).getD i 0 ≤ 0 :=
      div_nonpos_of_nonpos_of_nonneg (by linarith) hApos.le
    constructor
    · linarith
    · constructor
      · intro h0
        rcases mul_eq_zero.1 h0 with h0 | h0
        · rcases div_eq_zero_iff.1 h0 with h0 | h0
          · linarith [sub_eq_zero.1 h0]
          · exact absurd h0 hApos.ne'
        · exact absurd h0 (by norm_num)
      · intro hc
        rw [hc, sub_self, zero_div, zero_mul]

/-- C3 (witness instance of the amended claim, at the positive series
`[4, 1]` and index 1). -/
theorem C3_witness :
    (ddSeries [4, 1]).getD 1 none
      = some ((([4, 1] : List ℚ).getD 1 0 - (athSeries [4, 1]).getD 1 0)
          / (athSeries [4, 1]).getD 1 0 * 100)
    ∧ ∀ v, (ddSeries [4, 1]).getD 1 none = some v → v ≤ 0 := by
  have h := C3_ath_running_max_and_drawdown_nonpos [4, 1]
    (by norm_num [List.forall_mem_cons]) 1 (by norm_num)
  exact ⟨h.2.2.1, fun v hv => (h.2.2.2 v hv).1⟩

/-- C4: normalization fails with a `DataUnavailable`-kind error exactly
when the raw table is empty, the close column cannot be resolved, or
every close value is null; and every normalization error aborts the run
with that error before any indicator computation (`get_data` propagates
it unchanged, so malformed input never reaches the Indicator Engine). -/
theorem C4_data_unavailable_exactly_on_the_three_checks
    (f : RawFrame) (sq : ℚ → ℚ) :
    ((∃ e, normalize f = .error e ∧ e.isDataUnavailable = true)
      ↔ (f.rows.isEmpty = true
          ∨ "Close" ∉ f.cols.map columnMap
          ∨ f.rows.all (fun r =>
              (r.2.getD ((f.cols.map columnMap).indexOf "Close") none).isNone)
            = true))
    ∧ (∀ e, normalize f = .error e → get_data f sq = .error e) := by
  refine ⟨?_, ?_⟩
  · by_cases h1 : f.rows.isEmpty = true
    · exact ⟨fun _ => Or.inl h1,
        fun _ => ⟨.emptyTable, by simp [normalize, h1], rfl⟩⟩
    · by_cases h2 : "Close" ∈ f.cols.map columnMap
      · by_cases h3 : f.rows.all (fun r =>
            (r.2.getD ((f.cols.map columnMap).indexOf "Close") none).isNone)
            = true
        · refine ⟨fun _ => Or.inr (Or.inr h3), fun _ => ⟨.allCloseNull, ?_, rfl⟩⟩
          simp only [normalize]
          rw [if_neg h1, if_pos h2, if_pos h3]
        · constructor
          · rintro ⟨e, he, hd⟩
            simp only [normalize] at he
            rw [if_neg h1, if_pos h2, if_neg h3] at he
            split at he
            · injection he with he
              subst he
              simp [PipeError.isDataUnavailable] at hd
            · simp at he
          · rintro (h | h | h)
            · exact absurd h h1
            · exact absurd h2 h
            · exact absurd h h3
      · refine ⟨fun _ => Or.inr (Or.inl h2), fun _ => ⟨.closeMissing, ?_, rfl⟩⟩
        simp only [normalize]
        rw [if_neg h1, if_neg h2]
  · intro e he
    unfold get_data
    rw [he]

/-- C4 (witness instance, at an empty raw table). -/
theorem C4_witness :
    ∃ e, normalize (⟨canonCols, []⟩ : RawFrame) = .error e
      ∧ e.isDataUnavailable = true
      ∧ get_data ⟨canonCols, []⟩ sq0 = .error e := by
  have h := C4_data_unavailable_exactly_on_the_three_checks ⟨canonCols, []⟩ sq0
  obtain ⟨e, he, hd⟩ := h.1.mpr (Or.inl rfl)
  exact ⟨e, he, hd, h.2 e he⟩

/-- C5: applied to the most recent signal row, the gate in live mode runs
main.py lines 131-140 (an event is composed exactly when that row's buy
signal is true, with the row's date and close, the body holding the price
formatted to two decimals); test mode always composes a test-tagged
event and forced mode always composes a live-tagged event, both carrying
the row's date and price regardless of the signal value. -/
theorem C5_notification_gate_modes
    (rows : List SigRow) (r : SigRow) (cfg : Config)
    (deliver : Config → EmailMsg → Except String Unit)
    (h : rows.getLast? = some r) :
    (gateRun rows cfg deliver
        = if r.buy then
            .ok (rows, some (send_email cfg r.date r.close false deliver))
          else .ok (rows, none))
    ∧ ((decideLast r .live).isSome = r.buy)
    ∧ (∀ ev, decideLast r .live = some ev →
        ev.date = r.date ∧ ev.price = r.close ∧ ev.testFlag = false
          ∧ ev.body = composeBody r.date r.close)
    ∧ (∃ ev, decideLast r .test = some ev ∧ ev.testFlag = true
        ∧ ev.date = r.date ∧ ev.price = r.close
        ∧ ev.body = composeBody r.date r.close)
    ∧ (∃ ev, decideLast r .forced = some ev ∧ ev.testFlag = false
        ∧ ev.date = r.date ∧ ev.price = r.close) := by
  refine ⟨?_, ?_, ?_, ?_, ?_⟩
  · unfold gateRun
    rw [h]
  · cases hb : r.buy <;> simp [decideLast, hb]
  · intro ev hev
    unfold decideLast at hev
    cases hb : r.buy <;> rw [hb] at hev
    · simp at hev
    · rw [if_pos rfl] at hev
      injection hev with hev
      subst hev
      exact ⟨rfl, rfl, rfl, rfl⟩
  · exact ⟨mkEvent r true, rfl, rfl, rfl, rfl, rfl⟩
  · exact ⟨mkEvent r false, rfl, rfl, rfl, rfl⟩

/-- C5 (witness instance, at a one-row signal table whose buy signal is
set). -/
theorem C5_witness :
    ((decideLast rT .live).isSome = rT.buy)
    ∧ (∃ ev, decideLast rT .test = some ev ∧ ev.testFlag = true
        ∧ ev.date = rT.date ∧ ev.price = rT.close
        ∧ ev.body = composeBody rT.date rT.close) := by
  have h := C5_notification_gate_modes [rT] rT cfg0 deliverOk (by rfl)
  exact ⟨h.2.1, h.2.2.2.1⟩

/-- An unsorted two-row raw table (dates 2 then 1), fully populated. -/
def cexFrame6 : RawFrame := ⟨canonCols, [fullRow 2 5, fullRow 1 7]⟩

/-- C6 (counterexample): the normalizer neither sorts nor de-duplicates —
fed rows with dates `[2, 1]` it returns them in that order, so its output
is not sorted ascending by date. -/
theorem C6_counterexample_unsorted_input_stays_unsorted :
    (normalize cexFrame6).toOption.map (List.map NormRow.date) = some [2, 1]
    ∧ ¬ List.Chain' (· < ·) [2, 1] :=
  ⟨by rfl, by simp [List.chain'_cons]⟩

/-- C6 (amended): the normalizer performs no sorting and no
de-duplication: its output is exactly the retained input rows (those with
no null cell) in their original order, so the output is sorted with
unique dates only when the input already is. -/
theorem C6_normalizer_preserves_input_order
    (f : RawFrame) (ns : List NormRow) (h : normalize f = .ok ns) :
    ns.map NormRow.date = (f.rows.filter rowAllSome).map Prod.fst := by
  rw [normalize_ok_eq h, List.map_map]
  rfl

/-- C6 (witness instance, at the two-point series). -/
theorem C6_witness :
    ns2.map NormRow.date = (frame2.rows.filter rowAllSome).map Prod.fst :=
  C6_normalizer_preserves_input_order frame2 ns2 (by rfl)

/-- A three-row raw table whose third row has a non-null close but a null
volume. -/
def cexFrame7 : RawFrame :=
  ⟨canonCols, [fullRow 0 5, fullRow 1 6,
    (2, [some 1, some 1, some 1, some 9, none])]⟩

/-- C7 (counterexample): `df.dropna()` drops every row containing any
null, not only rows with a null close: of three rows with non-null
closes, a row with a null volume is dropped and only two survive. -/
theorem C7_counterexample_nonnull_close_row_dropped :
    (normalize cexFrame7).toOption.map List.length = some 2
    ∧ (cexFrame7.rows.filter (fun r =>
        (r.2.getD ((cexFrame7.cols.map columnMap).indexOf "Close") none).isSome)).length
      = 3 :=
  ⟨by rfl, by rfl⟩

/-- C7 (amended): the normalizer drops exactly the rows containing a null
in any field (not merely the null-close rows); every fully non-null row
is retained, its fields carried through untouched. -/
theorem C7_normalizer_drops_exactly_any_null_rows
    (f : RawFrame) (ns : List NormRow) (h : normalize f = .ok ns) :
    ns.map NormRow.cells = (f.rows.filter rowAllSome).map Prod.snd
    ∧ ∀ r ∈ f.rows, rowAllSome r = true → r.2 ∈ ns.map NormRow.cells := by
  have h1 : ns.map NormRow.cells = (f.rows.filter rowAllSome).map Prod.snd := by
    rw [normalize_ok_eq h, List.map_map]
    rfl
  refine ⟨h1, ?_⟩
  intro r hr hall
  rw [h1]
  exact List.mem_map_of_mem Prod.snd (List.mem_filter.2 ⟨hr, hall⟩)

/-- C7 (witness instance, at the two-point series). -/
theorem C7_witness :
    ns2.map NormRow.cells = (frame2.rows.filter rowAllSome).map Prod.snd
    ∧ ∀ r ∈ frame2.rows, rowAllSome r = true → r.2 ∈ ns2.map NormRow.cells :=
  C7_normalizer_drops_exactly_any_null_rows frame2 ns2 (by rfl)

/-- C8: a failing mail-delivery call is caught at the gate boundary and
surfaced as the non-fatal `st.error` warning: the gate run still returns
`.ok` with the already-computed signal table unchanged, the warning
carrying the collaborator's message. -/
theorem C8_delivery_failure_is_nonfatal_warning
    (rows : List SigRow) (latest : SigRow) (cfg : Config) (e : String)
    (deliver : Config → EmailMsg → Except String Unit)
    (hlast : rows.getLast? = some latest) (hbuy : latest.buy = true)
    (hfail : deliver cfg (composeMsg cfg latest.date latest.close false)
      = .error e) :
    gateRun rows cfg deliver
      = .ok (rows, some (.errorMsg ("Failed to send email: " ++ e))) := by
  unfold gateRun
  rw [hlast]
  simp only [hbuy, if_pos]
  simp only [send_email]
  rw [hfail]

/-- C8 (witness instance, at a one-row table and an always-failing
collaborator). -/
theorem C8_witness :
    gateRun [rT] cfg0 deliverBoom
      = .ok ([rT], some (.errorMsg ("Failed to send email: " ++ "boom"))) :=
  C8_delivery_failure_is_nonfatal_warning [rT] rT cfg0 "boom" deliverBoom
    rfl rfl rfl

/-- C9: when the raw table is non-empty, its close column resolves and not
every close is null, validation passes even if dropping each row holding
some null leaves no rows at all: normalization succeeds with an empty
series, `get_data` returns an empty signal table, and the gate's
`df.iloc[-1]` access then fails — the normalizer does not establish the
non-empty-table precondition the gate relies on. -/
theorem C9_validation_passes_on_empty_after_dropna
    (f : RawFrame) (sq : ℚ → ℚ)
    (hne : f.rows ≠ [])
    (hclose : "Close" ∈ f.cols.map columnMap)
    (hnotall : ¬ (f.rows.all (fun r =>
      (r.2.getD ((f.cols.map columnMap).indexOf "Close") none).isNone) = true))
    (hdrop : f.rows.filter rowAllSome = []) :
    normalize f = .ok [] ∧ get_data f sq = .ok []
      ∧ ∀ cfg deliver, gateRun [] cfg deliver
          = .error "single positional indexer is out-of-bounds" := by
  have h1 : ¬ (f.rows.isEmpty = true) := by
    simpa [List.isEmpty_iff] using hne
  have hnorm : normalize f = .ok [] := by
    simp only [normalize]
    rw [if_neg h1, if_pos hclose, if_neg hnotall, hdrop]
    rfl
  refine ⟨hnorm, ?_, fun cfg deliver => rfl⟩
  unfold get_data
  rw [hnorm]
  rfl

/-- A one-row raw table whose close is present but whose volume is null,
so `dropna` removes every row. -/
def cexFrame9 : RawFrame :=
  ⟨canonCols, [(0, [some 1, some 1, some 1, some 9, none])]⟩

/-- C9 (witness instance, at the one-row table with a null volume). -/
theorem C9_witness :
    normalize cexFrame9 = .ok [] ∧ get_data cexFrame9 sq0 = .ok []
      ∧ gateRun [] cfg0 deliverOk
          = .error "single positional indexer is out-of-bounds" := by
  have h := C9_validation_passes_on_empty_after_dropna cexFrame9 sq0
    (by simp [cexFrame9]) (by simp [cexFrame9, canonCols, columnMap, TICKER])
    (by simp [cexFrame9, canonCols, columnMap, TICKER]) (by rfl)
  exact ⟨h.1, h.2.1, h.2.2 cfg0 deliverOk⟩

/-- C10: `send_email` performs no validation of the mail configuration —
for every configuration (unset sender, unset password, empty recipient
list included) and every rational price, the delivery attempt on the
composed message is made unconditionally, a successful attempt is
reported as a success, and every failure is caught and surfaced as the
warning; the function is total, so no exception ever propagates.  On the
all-unset configuration the composed message has no from-address and an
empty recipient line. -/
theorem C10_send_email_total_and_unvalidated
    (cfg : Config) (d : ℕ) (price : ℚ) (testMode : Bool)
    (deliver : Config → EmailMsg → Except String Unit) :
    (send_email cfg d price testMode deliver
      = match deliver cfg (composeMsg cfg d price testMode) with
        | .ok _ => .success ("Email" ++ (if testMode then " (test)" else "")
            ++ " sent to: " ++ String.intercalate ", " cfg.recipients)
        | .error e => .errorMsg ("Failed to send email: " ++ e))
    ∧ (composeMsg ⟨none, none, []⟩ d price testMode).fromAddr = none
    ∧ (composeMsg ⟨none, none, []⟩ d price testMode).toLine = "" := by
  refine ⟨?_, rfl, rfl⟩
  cases h : deliver cfg (composeMsg cfg d price testMode) with
  | ok u =>
    simp only [send_email, h]
    rfl
  | error e =>
    simp only [send_email, h]

end VWRL
